import Mathlib

/-!
Verification of the runc systemd cgroup-v1 manager
(`libcontainer/cgroups/systemd/v1.go`) and the eBPF device-filter
attacher.  External calls (dbus unit manager, kernel syscalls, cgroup
filesystem) are modelled by an explicit oracle structure (`World`,
`BpfWorld`) recording the outcome of each call, and every operation
additionally returns the trace of external calls it made, so that
ordering and locking properties can be stated.
-/

namespace Runc

/-- Freezer states, from `configs.FreezerState`. -/
inductive FreezerState
  | undefined
  | frozen
  | thawed
deriving DecidableEq

/-- A device rule, kept abstract: only whether it translates successfully
and an opaque payload matter to this development.  Modelled from the spec:
the concrete rule fields live outside this core. -/
structure DeviceRule where
  wellformed : Bool
  payload : Nat
deriving DecidableEq

/-- A typed systemd property value (spec section 6: string, boolean,
64-bit unsigned integer, list of 32-bit integers, device rule). -/
inductive PropValue
  | u64 (n : Nat)
  | bool (b : Bool)
  | str (s : String)
  | pids (l : List Nat)
  | deviceRule (payload : Nat)
deriving DecidableEq

/-- A systemd unit property, as in `systemdDbus.Property`. -/
structure Property where
  name : String
  value : PropValue
deriving DecidableEq

/-- `newProp` from the source. -/
def newProp (name : String) (value : PropValue) : Property :=
  ⟨name, value⟩

/-- Go `uint64(i)` on an `int64` value: reduction mod 2^64. -/
def u64ofInt (i : Int) : Nat :=
  (i % (18446744073709551616 : Int)).toNat

/-- Go `uint32(i)` on an `int` value: reduction mod 2^32. -/
def u32ofInt (i : Int) : Nat :=
  (i % (4294967296 : Int)).toNat

/-- `configs.Resources`, restricted to the fields this core reads.
The `unified` field models the `Unified` map: `some` means non-nil. -/
structure Resources where
  memory : Int
  cpuShares : Nat
  cpuQuota : Int
  cpuPeriod : Nat
  blkioWeight : Nat
  pidsLimit : Int
  cpusetCpus : String
  cpusetMems : String
  devices : List DeviceRule
  freezer : FreezerState
  unified : Option (List (String × String))
deriving DecidableEq

/-- `configs.Cgroup`: the per-Apply config.  `paths` models the optional
externally-supplied `Paths` map (assoc list keyed by subsystem name). -/
structure CgroupConfig where
  name : String
  parent : String
  paths : Option (List (String × String))
  resources : Resources
  skipDevices : Bool
  systemdProps : List Property
deriving DecidableEq

/-- `legacyManager`: config plus the live path table. -/
structure Manager where
  cgroups : CgroupConfig
  paths : List (String × String)
deriving DecidableEq

/-- Map lookup on the assoc-list model of `map[string]string`. -/
def lookupPath (paths : List (String × String)) (k : String) : Option String :=
  (paths.find? fun kv => kv.1 == k).map fun kv => kv.2

/-- `errSubsystemDoesNotExist` from the source. -/
def errSubsystemDoesNotExist : String := "cgroup: subsystem does not exist"

/-- Modelled from the spec: `cgroups.ErrV1NoUnified`, the rejection of a
unified-resource value in the legacy (v1) manager. -/
def errV1NoUnified : String := "unified resource is not supported on cgroup v1"

/-- The names of the `legacySubsystems` slice, in source order.  The
`Name()` methods live outside this core; the names follow the spec's
subsystem list (section 2) and the fs group types in the source. -/
def legacySubsystems : List String :=
  ["cpuset", "devices", "memory", "cpu", "cpuacct", "pids", "blkio",
   "hugetlb", "perf_event", "freezer", "net_prio", "net_cls", "name=systemd"]

/-- Modelled from the spec: `getUnitName` (outside this core) computes the
unit name implied by the config name (slice names kept, otherwise a scope
unit name is formed). -/
def getUnitName (c : CgroupConfig) : String :=
  if c.name.endsWith ".slice" then c.name else c.name ++ ".scope"

/-- External calls a manager operation can make, in order, plus the
manager's own lock acquisition and release. -/
inductive Event
  | lock
  | unlock
  | parseCgroupFile
  | enterPid
  | startUnit (unit : String) (props : List Property)
  | stopUnit (unit : String)
  | removePaths
  | setUnitProps
  | getFreezer
  | freezeWrite (s : FreezerState)
  | mkdirAll (path : String)
  | enrollPid (path : String) (pid : Int)
  | cpusetApplyDir (path : String) (pid : Int)
  | subsysSet (name : String)
  | subsysStats (name : String)
deriving DecidableEq

/-- Error from `getSubsystemPath`: `notFound` marks the
`cgroups.IsNotFound` case (hierarchy not mounted). -/
structure PathErr where
  notFound : Bool
  msg : String
deriving DecidableEq

/-- Outcomes of every external call a manager operation can make.
`Option String` fields are `some msg` on failure, `none` on success. -/
structure World where
  parseCgroup : Except String (List String)
  enterPidRes : Except String Unit
  startUnitRes : Option String
  stopUnitRes : Option String
  removePathsRes : Option String
  subsystemPathRes : String → Except PathErr String
  freezerGetRes : Except String FreezerState
  freezeOk : Nat → Bool
  setUnitPropsRes : Option String
  subsysSetRes : String → Option String
  subsysStatsRes : String → Option String
  mkdirRes : String → Option String
  writeProcRes : String → Option String
  cpusetApplyRes : Option String
  pidsAt : String → List Int
  allPidsAt : String → List Int

/-- Run a per-subsystem action over a list of subsystem names, stopping
at the first error, concatenating the traces (the shape of the loops in
`joinCgroups`, `Set`, and `GetStats`). -/
def runSeq (f : String → Except String Unit × List Event) :
    List String → Except String Unit × List Event
  | [] => (.ok (), [])
  | s :: rest =>
    match f s with
    | (.error e, evs) => (.error e, evs)
    | (.ok _, evs) =>
      let r2 := runSeq f rest
      (r2.1, evs ++ r2.2)

/-- Modelled from the spec: `generateDeviceProperties` (outside this core)
translates the device-rule list, order-preserving, into `DeviceAllow`
entries, failing without emitting any properties on a malformed rule. -/
def generateDeviceProperties (devs : List DeviceRule) :
    Except String (List Property) :=
  if devs.all fun d => d.wellformed then
    .ok (devs.map fun d => newProp "DeviceAllow" (PropValue.deviceRule d.payload))
  else .error "device translation failed"

/-- Modelled from the spec: `addCpuQuota` (outside this core) emits a
combined `CPUQuotaPerSecUSec` property when a quota or period is set,
honoring the unlimited quota sentinel distinctly from unset. -/
def addCpuQuota (quota : Int) (period : Nat) : List Property :=
  if quota = 0 ∧ period = 0 then []
  else if quota = -1 then
    [newProp "CPUQuotaPerSecUSec" (PropValue.u64 (u64ofInt (-1)))]
  else
    [newProp "CPUQuotaPerSecUSec"
      (PropValue.u64 (u64ofInt quota * 1000000 / (if period = 0 then 100000 else period)))]

/-- Wellformedness of a cpuset list string (digits, commas, ranges). -/
def cpusetWellformed (s : String) : Bool :=
  s.toList.all fun c => c.isDigit || c == ',' || c == '-'

/-- Modelled from the spec: `addCpuset` (outside this core) emits cpuset
properties only when a cpu or memory node list is non-empty, and fails on
a list it cannot translate. -/
def addCpuset (cpus mems : String) : Except String (List Property) :=
  if cpus.isEmpty && mems.isEmpty then .ok []
  else if cpusetWellformed cpus && cpusetWellformed mems then
    .ok ((if cpus.isEmpty then [] else [newProp "AllowedCPUs" (PropValue.str cpus)])
      ++ (if mems.isEmpty then [] else [newProp "AllowedMemoryNodes" (PropValue.str mems)]))
  else .error "cpuset translation failed"

/-- `genV1ResourcesProperties` from the source: device rules first, then
memory, cpu shares, cpu quota, blkio weight, pids limit, cpuset. -/
def genV1ResourcesProperties (r : Resources) : Except String (List Property) :=
  match generateDeviceProperties r.devices with
  | .error e => .error e
  | .ok deviceProperties =>
    let properties := deviceProperties
      ++ (if r.memory ≠ 0 then [newProp "MemoryLimit" (PropValue.u64 (u64ofInt r.memory))] else [])
      ++ (if r.cpuShares ≠ 0 then [newProp "CPUShares" (PropValue.u64 r.cpuShares)] else [])
      ++ addCpuQuota r.cpuQuota r.cpuPeriod
      ++ (if r.blkioWeight ≠ 0 then [newProp "BlockIOWeight" (PropValue.u64 r.blkioWeight)] else [])
      ++ (if r.pidsLimit > 0 ∨ r.pidsLimit = -1 then [newProp "TasksMax" (PropValue.u64 (u64ofInt r.pidsLimit))] else [])
    match addCpuset r.cpusetCpus r.cpusetMems with
    | .error e => .error e
    | .ok cpusetProps => .ok (properties ++ cpusetProps)

/-- The slice a unit is placed in: the config parent or `system.slice`. -/
def sliceOf (c : CgroupConfig) : String :=
  if c.parent == "" then "system.slice" else c.parent

/-- The property list built by `Apply` before starting the unit:
description, Wants/Slice, pid membership (when `pid != -1`), delegation
for scope units, the forced accounting flags, DefaultDependencies, and
the caller-supplied extra properties. -/
def applyProperties (c : CgroupConfig) (unitName slice : String) (pid : Int) :
    List Property :=
  [newProp "Description" (PropValue.str ("libcontainer container " ++ c.name))]
  ++ (if unitName.endsWith ".slice" then [newProp "Wants" (PropValue.str slice)]
      else [newProp "Slice" (PropValue.str slice)])
  ++ (if pid ≠ -1 then [newProp "PIDs" (PropValue.pids [u32ofInt pid])] else [])
  ++ (if unitName.endsWith ".slice" then [] else [newProp "Delegate" (PropValue.bool true)])
  ++ [newProp "MemoryAccounting" (PropValue.bool true),
      newProp "CPUAccounting" (PropValue.bool true),
      newProp "BlockIOAccounting" (PropValue.bool true),
      newProp "TasksAccounting" (PropValue.bool true)]
  ++ [newProp "DefaultDependencies" (PropValue.bool false)]
  ++ c.systemdProps

/-- The path-resolution loop of `Apply`: resolve every subsystem path;
a failure for `devices` is always fatal, any other failure is skipped if
it is a not-found error and fatal otherwise. -/
def resolvePaths (w : World) : List String → Except String (List (String × String))
  | [] => .ok []
  | s :: rest =>
    match w.subsystemPathRes s with
    | .error pe =>
      if s == "devices" then .error pe.msg
      else if pe.notFound then resolvePaths w rest
      else .error pe.msg
    | .ok p =>
      match resolvePaths w rest with
      | .error e => .error e
      | .ok ps => .ok ((s, p) :: ps)

/-- One step of `joinCgroups`: `name=systemd` is left to systemd, cpuset
uses `ApplyDir`, every other subsystem with a resolved path gets a
directory created and the pid enrolled. -/
def joinOne (w : World) (paths : List (String × String)) (pid : Int)
    (name : String) : Except String Unit × List Event :=
  if name == "name=systemd" then (.ok (), [])
  else if name == "cpuset" then
    match lookupPath paths name with
    | none => (.ok (), [])
    | some p =>
      match w.cpusetApplyRes with
      | some e => (.error e, [.cpusetApplyDir p pid])
      | none => (.ok (), [.cpusetApplyDir p pid])
  else
    match lookupPath paths name with
    | none => (.ok (), [])
    | some p =>
      match w.mkdirRes p with
      | some e => (.error e, [.mkdirAll p])
      | none =>
        match w.writeProcRes p with
        | some e => (.error e, [.mkdirAll p, .enrollPid p pid])
        | none => (.ok (), [.mkdirAll p, .enrollPid p pid])

/-- `joinCgroups` from the source. -/
def joinCgroups (w : World) (paths : List (String × String)) (pid : Int) :
    Except String Unit × List Event :=
  runSeq (joinOne w paths pid) legacySubsystems

/-- `Apply` from the source.  The unified-resource check comes first;
with externally-supplied config paths the pid is enrolled directly into
the paths intersected with the caller's active hierarchies; otherwise the
unit is started and every subsystem path resolved and joined. -/
def Manager.apply (m : Manager) (w : World) (pid : Int) :
    Manager × Except String Unit × List Event :=
  if (m.cgroups.resources.unified).isSome then (m, .error errV1NoUnified, [])
  else
    match m.cgroups.paths with
    | some cpaths =>
      match w.parseCgroup with
      | .error e => (m, .error e, [.lock, .parseCgroupFile, .unlock])
      | .ok cgMap =>
        let newPaths := cpaths.filter fun kv => cgMap.contains kv.1
        ({ m with paths := newPaths }, w.enterPidRes,
          [.lock, .parseCgroupFile, .enterPid, .unlock])
    | none =>
      let unitName := getUnitName m.cgroups
      let properties := applyProperties m.cgroups unitName (sliceOf m.cgroups) pid
      match w.startUnitRes with
      | some e => (m, .error e, [.lock, .startUnit unitName properties, .unlock])
      | none =>
        match resolvePaths w legacySubsystems with
        | .error e => (m, .error e, [.lock, .startUnit unitName properties, .unlock])
        | .ok newPaths =>
          let m1 := { m with paths := newPaths }
          let j := joinCgroups w newPaths pid
          (m1, j.1, [Event.lock, Event.startUnit unitName properties] ++ j.2 ++ [Event.unlock])

/-- `Destroy` from the source: no-op on externally-supplied config paths;
otherwise stop the unit, remove the tracked paths both on stop success
and failure, and return the removal error only when the stop succeeded. -/
def Manager.destroy (m : Manager) (w : World) : Except String Unit × List Event :=
  if (m.cgroups.paths).isSome then (.ok (), [])
  else
    let trace := [Event.lock, Event.stopUnit (getUnitName m.cgroups),
      Event.removePaths, Event.unlock]
    match w.removePathsRes, w.stopUnitRes with
    | some re, none => (.error re, trace)
    | _, some se => (.error se, trace)
    | none, none => (.ok (), trace)

/-- `Path` from the source: a locked lookup in the path table, empty
string when absent (Go map default). -/
def Manager.path (m : Manager) (subsys : String) : String × List Event :=
  ((lookupPath m.paths subsys).getD "", [Event.lock, Event.unlock])

/-- `Freeze` from the source: requires the freezer path; records the
desired state, writes it, and rolls the recorded state back on failure.
`idx` numbers the freezer write within the enclosing operation (for the
oracle). -/
def Manager.freeze (m : Manager) (w : World) (idx : Nat) (state : FreezerState) :
    Manager × Except String Unit × List Event :=
  match lookupPath m.paths "freezer" with
  | none => (m, .error errSubsystemDoesNotExist, [])
  | some _ =>
    let prevState := m.cgroups.resources.freezer
    let m1 := { m with cgroups := { m.cgroups with
      resources := { m.cgroups.resources with freezer := state } } }
    if w.freezeOk idx then (m1, .ok (), [.freezeWrite state])
    else
      ({ m1 with cgroups := { m1.cgroups with
        resources := { m1.cgroups.resources with freezer := prevState } } },
       .error "freezer set failed", [.freezeWrite state])

/-- `GetFreezerState` from the source: `Undefined` without error when no
freezer path is tracked, otherwise a kernel read. -/
def Manager.getFreezerState (m : Manager) (w : World) :
    Except String FreezerState × List Event :=
  match lookupPath m.paths "freezer" with
  | none => (.ok FreezerState.undefined, [])
  | some _ => (w.freezerGetRes, [.getFreezer])

/-- `GetPids` from the source: reads via the devices subsystem path only. -/
def Manager.getPids (m : Manager) (w : World) :
    Except String (List Int) × List Event :=
  match lookupPath m.paths "devices" with
  | none => (.error errSubsystemDoesNotExist, [])
  | some p => (.ok (w.pidsAt p), [])

/-- `GetAllPids` from the source: reads via the devices subsystem path only. -/
def Manager.getAllPids (m : Manager) (w : World) :
    Except String (List Int) × List Event :=
  match lookupPath m.paths "devices" with
  | none => (.error errSubsystemDoesNotExist, [])
  | some p => (.ok (w.allPidsAt p), [])

/-- One step of the `GetStats` loop: skip subsystems without a path,
first stats error aborts. -/
def statsOne (w : World) (paths : List (String × String)) (name : String) :
    Except String Unit × List Event :=
  match lookupPath paths name with
  | none => (.ok (), [])
  | some _ =>
    match w.subsysStatsRes name with
    | some e => (.error e, [.subsysStats name])
    | none => (.ok (), [.subsysStats name])

/-- `GetStats` from the source: locked iteration over the subsystems. -/
def Manager.getStats (m : Manager) (w : World) : Except String Unit × List Event :=
  let r := runSeq (statsOne w m.paths) legacySubsystems
  (r.1, [Event.lock] ++ r.2 ++ [Event.unlock])

/-- One step of the subsystem loop at the end of `Set`: skip subsystems
without a path, first `Set` error aborts. -/
def setOne (w : World) (paths : List (String × String)) (name : String) :
    Except String Unit × List Event :=
  match lookupPath paths name with
  | none => (.ok (), [])
  | some _ =>
    match w.subsysSetRes name with
    | some e => (.error e, [.subsysSet name])
    | none => (.ok (), [.subsysSet name])

/-- The tail of `Set` after the freezer bracket was prepared: apply the
unit properties, restore the freezer state `target` whether or not that
application succeeded (the restore's own failure is discarded), then run
the per-subsystem `Set` loop. -/
def setAfterFreeze (m : Manager) (w : World) (target : FreezerState)
    (pre : List Event) : Manager × Except String Unit × List Event :=
  match w.setUnitPropsRes with
  | some e =>
    let m2 := (m.freeze w 1 target).1
    (m2, .error e, pre ++ [Event.setUnitProps] ++ (m.freeze w 1 target).2.2)
  | none =>
    let m2 := (m.freeze w 1 target).1
    let run := runSeq (setOne w m2.paths) legacySubsystems
    (m2, run.1, pre ++ [Event.setUnitProps] ++ (m.freeze w 1 target).2.2 ++ run.2)

/-- `Set` from the source: no-op on externally-supplied config paths;
reject unified resources; translate; unless device enforcement is
skipped, read the freezer state (Undefined defaults to Thawed) and
freeze; apply properties and restore the freezer state in all cases. -/
def Manager.set (m : Manager) (w : World) (r : Resources) :
    Manager × Except String Unit × List Event :=
  if (m.cgroups.paths).isSome then (m, .ok (), [])
  else if r.unified.isSome then (m, .error errV1NoUnified, [])
  else
    match genV1ResourcesProperties r with
    | .error e => (m, .error e, [])
    | .ok _ =>
      if m.cgroups.skipDevices then
        setAfterFreeze m w FreezerState.undefined []
      else
        match (m.getFreezerState w).1 with
        | .error e => (m, .error e, (m.getFreezerState w).2)
        | .ok s0 =>
          let target := if s0 = FreezerState.undefined then FreezerState.thawed else s0
          let m2 := (m.freeze w 0 FreezerState.frozen).1
          setAfterFreeze m2 w target
            ((m.getFreezerState w).2 ++ (m.freeze w 0 FreezerState.frozen).2.2)

/-! ## eBPF device-filter attacher (`findAttachedCgroupDeviceFilters`,
`LoadAttachCgroupDeviceFilter`) -/

/-- One kernel answer to `BPF_PROG_QUERY`: success with the attached
program ids, `ENOSPC` with the kernel-reported required count, or some
other errno. -/
inductive QueryResp
  | ok (progIds : List Nat)
  | enospc (required : Nat)
  | fail (errno : Nat)
deriving DecidableEq

/-- Errors of `findAttachedCgroupDeviceFilters`: a raw query errno, a
failure resolving a program id to a handle, or exhaustion of the retry
budget (the enumeration-race error). -/
inductive FilterErr
  | syscall (errno : Nat)
  | fetchProg (id : Nat)
  | enumerationRace
deriving DecidableEq

/-- External calls of the attacher, in order. -/
inductive BpfEvent
  | setrlimit
  | query (bufSize : Nat)
  | loadProg
  | attach (replace : Option Nat)
  | detach (prog : Nat)
deriving DecidableEq

/-- Outcomes of the attacher's external calls.  `resp i` is the kernel's
answer to the `i`-th `BPF_PROG_QUERY`; program handles are numbers. -/
structure BpfWorld where
  resp : Nat → QueryResp
  progFromId : Nat → Except String Nat
  loadRes : Except String Nat
  attachOk : Bool
  detachOk : Nat → Bool

/-- The id-to-handle resolution loop: the first failure aborts the whole
enumeration. -/
def resolvePrograms (w : BpfWorld) : List Nat → Except FilterErr (List Nat)
  | [] => .ok []
  | id :: rest =>
    match w.progFromId id with
    | .error _ => .error (.fetchProg id)
    | .ok p =>
      match resolvePrograms w rest with
      | .error e => .error e
      | .ok ps => .ok (p :: ps)

/-- The query loop of `findAttachedCgroupDeviceFilters`: `fuel` is the
remaining retry budget (`10 - retries`), `idx` numbers the query calls,
`size` is the buffer size passed to the next query.  On `ENOSPC` the
buffer is resized to the kernel-reported required count and the query
retried; any other errno aborts; on success the returned ids are
resolved to handles. -/
def queryLoop (w : BpfWorld) (idx size : Nat) :
    Nat → Except FilterErr (List Nat) × List BpfEvent
  | 0 => (.error .enumerationRace, [])
  | fuel + 1 =>
    match w.resp idx with
    | .enospc required =>
      let rest := queryLoop w (idx + 1) required fuel
      (rest.1, .query size :: rest.2)
    | .fail errno => (.error (.syscall errno), [.query size])
    | .ok ids =>
      match resolvePrograms w ids with
      | .error e => (.error e, [.query size])
      | .ok progs => (.ok progs, [.query size])

/-- `findAttachedCgroupDeviceFilters` from the source: initial buffer
size 64, at most 10 retries. -/
def findAttachedCgroupDeviceFilters (w : BpfWorld) :
    Except FilterErr (List Nat) × List BpfEvent :=
  queryLoop w 0 64 10

/-- The revert action returned by the attacher: `nil` is `nilCloser`,
`detachNew p` detaches the newly attached program `p`. -/
inductive Closer
  | nil
  | detachNew (prog : Nat)
deriving DecidableEq

/-- Render a `FilterErr` as the attacher's error string. -/
def filterErrString : FilterErr → String
  | .syscall _ => "bpf_prog_query(BPF_CGROUP_DEVICE) failed"
  | .fetchProg _ => "cannot fetch program from id"
  | .enumerationRace => "could not get complete list of CGROUP_DEVICE programs"

/-- The error string for a detach failure on an old filter program. -/
def errDetachOld : String :=
  "failed to call BPF_PROG_DETACH (BPF_CGROUP_DEVICE) on old filter program"

/-- The error string for an attach failure. -/
def errAttach : String :=
  "failed to call BPF_PROG_ATTACH (BPF_CGROUP_DEVICE, BPF_F_ALLOW_MULTI)"

/-- The replace target passed to the attach call: the single prior
program when exactly one was attached, none otherwise. -/
def replaceOf (oldProgs : List Nat) : Option Nat :=
  match oldProgs with
  | [q] => some q
  | _ => none

/-- The detach loop over the prior programs (run only when more than one
was attached): stops at the first detach failure. -/
def detachOldProgs (w : BpfWorld) : List Nat → Except String Unit × List BpfEvent
  | [] => (.ok (), [])
  | q :: rest =>
    if w.detachOk q then
      let r := detachOldProgs w rest
      (r.1, .detach q :: r.2)
    else (.error errDetachOld, [.detach q])

/-- `LoadAttachCgroupDeviceFilter` from the source: raise the memlock
limit (best effort), enumerate prior programs, load the new program,
attach it with allow-multi semantics passing the single prior program as
the replace target when exactly one existed, and detach all prior
programs when more than one existed, surfacing a detach failure together
with the still-valid revert action. -/
def LoadAttachCgroupDeviceFilter (w : BpfWorld) :
    (Closer × Except String Unit) × List BpfEvent :=
  let f := findAttachedCgroupDeviceFilters w
  let evs0 := BpfEvent.setrlimit :: f.2
  match f.1 with
  | .error e => ((.nil, .error (filterErrString e)), evs0)
  | .ok oldProgs =>
    match w.loadRes with
    | .error e => ((.nil, .error e), evs0 ++ [.loadProg])
    | .ok prog =>
      let rep := replaceOf oldProgs
      if w.attachOk then
        let closer := Closer.detachNew prog
        if 1 < oldProgs.length then
          let d := detachOldProgs w oldProgs
          match d.1 with
          | .error e => ((closer, .error e), evs0 ++ [.loadProg, .attach rep] ++ d.2)
          | .ok _ => ((closer, .ok ()), evs0 ++ [.loadProg, .attach rep] ++ d.2)
        else ((closer, .ok ()), evs0 ++ [.loadProg, .attach rep])
      else ((.nil, .error errAttach), evs0 ++ [.loadProg, .attach rep])

/-- The replace argument of the first attach event in a trace. -/
def attachArg : List BpfEvent → Option (Option Nat)
  | [] => none
  | .attach r :: _ => some r
  | _ :: rest => attachArg rest

/-- The programs detached along a trace, in order. -/
def detachedProgs (tr : List BpfEvent) : List Nat :=
  tr.filterMap fun ev =>
    match ev with
    | .detach q => some q
    | _ => none

/-- The buffer size used by the `j`-th query call when the first call
uses `size` and the `i`-th kernel answer reported a required count of
`req i`: the initial size for `j = 0`, afterwards the count reported by
the previous answer. -/
def chainSize (size : Nat) (req : Nat → Nat) : Nat → Nat
  | 0 => size
  | j + 1 => req j

/-- The freezer states written along a trace, in order. -/
def freezeWrites (tr : List Event) : List FreezerState :=
  tr.filterMap fun ev =>
    match ev with
    | .freezeWrite s => some s
    | _ => none

/-- Whether a manager event touches the cgroup filesystem on behalf of a
pid (directory creation or pid enrollment). -/
def touchesCgroupFs : Event → Bool
  | .mkdirAll _ => true
  | .enrollPid _ _ => true
  | .cpusetApplyDir _ _ => true
  | .enterPid => true
  | _ => false

/-- Whether a manager event is a unit-start call. -/
def isStartUnit : Event → Bool
  | .startUnit _ _ => true
  | _ => false

/-- Membership test for a property name in a property list. -/
def hasName (props : List Property) (n : String) : Bool :=
  props.any fun p => p.name == n

/-! ## Concrete sample inputs used to evaluate the theorems -/

/-- A world in which every external call succeeds. -/
def allOkWorld : World where
  parseCgroup := .ok ["devices", "memory", "freezer"]
  enterPidRes := .ok ()
  startUnitRes := none
  stopUnitRes := none
  removePathsRes := none
  subsystemPathRes := fun s => .ok ("/sys/fs/cgroup/" ++ s)
  freezerGetRes := .ok .thawed
  freezeOk := fun _ => true
  setUnitPropsRes := none
  subsysSetRes := fun _ => none
  subsysStatsRes := fun _ => none
  mkdirRes := fun _ => none
  writeProcRes := fun _ => none
  cpusetApplyRes := none
  pidsAt := fun _ => [1]
  allPidsAt := fun _ => [1]

/-- A world in which the devices hierarchy cannot be resolved and every
other call succeeds. -/
def wNoDevPath : World :=
  { allOkWorld with subsystemPathRes :=
      (fun s =>
        if s == "devices" then .error ⟨true, "devices hierarchy not mounted"⟩
        else .ok ("/sys/fs/cgroup/" ++ s)) }

/-- A world in which both the unit stop and the path removal fail. -/
def wBothFail : World :=
  { allOkWorld with stopUnitRes := some "stop failed",
                    removePathsRes := some "remove failed" }

/-- A sample resource value: memory and blkio set, shares zero, pids
limit at the unlimited sentinel. -/
def rSample : Resources where
  memory := 5
  cpuShares := 0
  cpuQuota := 0
  cpuPeriod := 0
  blkioWeight := 3
  pidsLimit := -1
  cpusetCpus := ""
  cpusetMems := ""
  devices := []
  freezer := .undefined
  unified := none

/-- A resource value whose device-rule list fails translation. -/
def rBadDev : Resources :=
  { rSample with devices := [⟨false, 0⟩] }

/-- A managed config (no externally-supplied paths). -/
def cfgManaged : CgroupConfig where
  name := "c1"
  parent := ""
  paths := none
  resources := rSample
  skipDevices := false
  systemdProps := []

/-- A managed manager with devices, freezer and memory paths tracked. -/
def mgrManaged : Manager where
  cgroups := cfgManaged
  paths := [("devices", "/d"), ("freezer", "/f"), ("memory", "/m")]

/-- A manager whose path table lacks the devices entry. -/
def mgrNoDev : Manager where
  cgroups := cfgManaged
  paths := [("memory", "/m"), ("freezer", "/f")]

/-- A config with externally-supplied paths and no unified value. -/
def cfgPathsOnly : CgroupConfig :=
  { cfgManaged with paths := some [("devices", "/d"), ("net_cls", "/n")] }

/-- A manager built from `cfgPathsOnly`. -/
def mgrPathsOnly : Manager where
  cgroups := cfgPathsOnly
  paths := []

/-- A config with externally-supplied paths and a unified value set. -/
def cfgPathsUnified : CgroupConfig :=
  { cfgManaged with paths := some [("devices", "/d")],
                    resources := { rSample with unified := some [] } }

/-- A manager built from `cfgPathsUnified`. -/
def mgrPathsUnified : Manager where
  cgroups := cfgPathsUnified
  paths := []

/-- A bpf world answering one ENOSPC (required count 80) then success. -/
def bw1 : BpfWorld where
  resp := fun i => if i = 0 then .enospc 80 else .ok [7]
  progFromId := fun id => .ok id
  loadRes := .ok 9
  attachOk := true
  detachOk := fun _ => true

/-- A bpf world answering ENOSPC forever. -/
def bwRace : BpfWorld :=
  { bw1 with resp := fun _ => .enospc 99 }

/-- A bpf world failing the first query with errno 14. -/
def bwFail : BpfWorld :=
  { bw1 with resp := fun _ => .fail 14 }

/-- A bpf world with two prior programs attached. -/
def bwTwo : BpfWorld :=
  { bw1 with resp := fun _ => .ok [3, 4] }

/-- The intersection of `cfgPathsOnly`'s explicit paths with the active
hierarchies reported by `allOkWorld`. -/
def intersectedPaths : List (String × String) :=
  [("devices", "/d"), ("net_cls", "/n")].filter
    (fun kv => ["devices", "memory", "freezer"].contains kv.1)

/-- The property list the translator produces for `rSample`. -/
def v1SampleProps : List Property :=
  [newProp "MemoryLimit" (PropValue.u64 5),
   newProp "BlockIOWeight" (PropValue.u64 3),
   newProp "TasksMax" (PropValue.u64 18446744073709551615)]

/-! ## Theorems -/

/-- Any list fails a constantly-false `any`. -/
theorem any_const_false {α : Type} (l : List α) :
    (l.any fun _ => false) = false := by
  induction l <;> simp_all

/-- `hasName` distributes over append. -/
theorem hasName_append (xs ys : List Property) (n : String) :
    hasName (xs ++ ys) n = (hasName xs n || hasName ys n) := by
  simp [hasName, List.any_append]

/-- `hasName` on a conditional singleton. -/
theorem hasName_if_singleton (c : Prop) [Decidable c] (p : Property) (n : String) :
    hasName (if c then [p] else []) n = (decide c && (p.name == n)) := by
  split <;> simp_all [hasName]

/-- Successful device translation emits only `DeviceAllow` entries. -/
theorem devSegment_hasName {devs : List DeviceRule} {dps : List Property}
    (h : generateDeviceProperties devs = .ok dps) (n : String)
    (hn : n ≠ "DeviceAllow") : hasName dps n = false := by
  unfold generateDeviceProperties at h
  split at h
  · cases h
    simp only [hasName]
    rw [List.any_eq_false]
    intro p hp
    simp only [List.mem_map] at hp
    obtain ⟨d, _, rfl⟩ := hp
    show ¬ (("DeviceAllow" : String) == n) = true
    simp only [beq_iff_eq]
    exact fun hq => hn hq.symm
  · cases h

/-- The cpu-quota helper emits only `CPUQuotaPerSecUSec` entries. -/
theorem quotaSegment_hasName (q : Int) (per : Nat) (n : String)
    (hn : n ≠ "CPUQuotaPerSecUSec") : hasName (addCpuQuota q per) n = false := by
  have hb : (("CPUQuotaPerSecUSec" == n) : Bool) = false := by
    simp only [beq_eq_false_iff_ne]
    exact fun hq => hn hq.symm
  unfold addCpuQuota
  split
  · simp [hasName]
  · split <;> simp [hasName, newProp, hb]

/-- The cpuset helper emits only `AllowedCPUs`/`AllowedMemoryNodes`. -/
theorem cpusetSegment_hasName {cpus mems : String} {cps : List Property}
    (h : addCpuset cpus mems = .ok cps) (n : String)
    (h1 : n ≠ "AllowedCPUs") (h2 : n ≠ "AllowedMemoryNodes") :
    hasName cps n = false := by
  have hb1 : (("AllowedCPUs" == n) : Bool) = false := by
    simp only [beq_eq_false_iff_ne]
    exact fun hq => h1 hq.symm
  have hb2 : (("AllowedMemoryNodes" == n) : Bool) = false := by
    simp only [beq_eq_false_iff_ne]
    exact fun hq => h2 hq.symm
  unfold addCpuset at h
  split at h
  · cases h; simp [hasName]
  · split at h
    · cases h
      rw [hasName_append]
      split <;> split <;> simp [hasName, newProp, hb1, hb2]
    · cases h

/-- Claim C5: for every Resources value the translator accepts, the
memory-limit property is emitted iff memory is non-zero, cpu shares iff
non-zero, blkio weight iff non-zero, and the pids-limit (TasksMax)
property iff the pids limit is strictly positive or exactly the
unlimited sentinel -1, never for zero. -/
theorem translate_emission_conditions (r : Resources) (props : List Property)
    (h : genV1ResourcesProperties r = .ok props) :
    (hasName props "MemoryLimit" = true ↔ r.memory ≠ 0)
    ∧ (hasName props "CPUShares" = true ↔ r.cpuShares ≠ 0)
    ∧ (hasName props "BlockIOWeight" = true ↔ r.blkioWeight ≠ 0)
    ∧ (hasName props "TasksMax" = true ↔ (0 < r.pidsLimit ∨ r.pidsLimit = -1)) := by
  unfold genV1ResourcesProperties at h
  cases hd : generateDeviceProperties r.devices with
  | error e => rw [hd] at h; cases h
  | ok dps =>
    rw [hd] at h
    cases hc : addCpuset r.cpusetCpus r.cpusetMems with
    | error e => rw [hc] at h; cases h
    | ok cps =>
      rw [hc] at h
      injection h with h
      subst h
      have hdev := devSegment_hasName hd
      have hqt := quotaSegment_hasName r.cpuQuota r.cpuPeriod
      have hcp := cpusetSegment_hasName hc
      refine ⟨?_, ?_, ?_, ?_⟩
      · simp only [hasName_append, hasName_if_singleton,
          hdev "MemoryLimit" (by decide), hqt "MemoryLimit" (by decide),
          hcp "MemoryLimit" (by decide) (by decide)]
        simp [newProp]
      · simp only [hasName_append, hasName_if_singleton,
          hdev "CPUShares" (by decide), hqt "CPUShares" (by decide),
          hcp "CPUShares" (by decide) (by decide)]
        simp [newProp]
      · simp only [hasName_append, hasName_if_singleton,
          hdev "BlockIOWeight" (by decide), hqt "BlockIOWeight" (by decide),
          hcp "BlockIOWeight" (by decide) (by decide)]
        simp [newProp]
      · simp only [hasName_append, hasName_if_singleton,
          hdev "TasksMax" (by decide), hqt "TasksMax" (by decide),
          hcp "TasksMax" (by decide) (by decide)]
        simp [newProp]

/-- Evaluation of claim C5 at `rSample`. -/
theorem translate_emission_conditions_witness :
    (hasName v1SampleProps "MemoryLimit" = true ↔ rSample.memory ≠ 0)
    ∧ (hasName v1SampleProps "CPUShares" = true ↔ rSample.cpuShares ≠ 0)
    ∧ (hasName v1SampleProps "BlockIOWeight" = true ↔ rSample.blkioWeight ≠ 0)
    ∧ (hasName v1SampleProps "TasksMax" = true
        ↔ (0 < rSample.pidsLimit ∨ rSample.pidsLimit = -1)) :=
  translate_emission_conditions rSample v1SampleProps (by rfl)

/-- Claim C10: `GetPids` and `GetAllPids` read through the devices
subsystem path exclusively; when the path table has no devices entry
both return the subsystem-does-not-exist error even if other subsystem
paths are present. -/
theorem getpids_requires_devices_path (m : Manager) (w : World)
    (h : lookupPath m.paths "devices" = none) :
    (m.getPids w).1 = .error errSubsystemDoesNotExist
    ∧ (m.getAllPids w).1 = .error errSubsystemDoesNotExist := by
  constructor <;> simp [Manager.getPids, Manager.getAllPids, h]

/-- Evaluation of claim C10 at a path table holding memory and freezer
entries but no devices entry. -/
theorem getpids_requires_devices_path_witness :
    lookupPath mgrNoDev.paths "devices" = none
    ∧ (mgrNoDev.getPids allOkWorld).1 = .error errSubsystemDoesNotExist
    ∧ (mgrNoDev.getAllPids allOkWorld).1 = .error errSubsystemDoesNotExist :=
  ⟨by rfl, (getpids_requires_devices_path mgrNoDev allOkWorld (by rfl)).1,
    (getpids_requires_devices_path mgrNoDev allOkWorld (by rfl)).2⟩

/-- Claim C1 counterexample: when both the unit stop and the path
removal fail, `Destroy` returns the stop error, not the cleanup
(path-removal) error as the claim states. -/
theorem destroy_both_fail_returns_stop_error :
    (mgrManaged.destroy wBothFail).1 = .error "stop failed"
    ∧ (Except.error "stop failed" : Except String Unit) ≠ .error "remove failed" := by
  refine ⟨by rfl, fun h => ?_⟩
  injection h with h1
  exact absurd h1 (by decide)

/-- Claim C1, amended: on a manager not constructed from
externally-supplied paths, `Destroy` removes the tracked paths whether or
not the unit stop succeeded, and returns the stop error whenever the
stop failed (even if the removal also failed); the removal error is
returned only when the stop succeeded; full success returns no error. -/
theorem destroy_error_reporting (m : Manager) (w : World)
    (h : m.cgroups.paths = none) :
    ((m.destroy w).1 = match w.stopUnitRes with
      | some se => .error se
      | none => match w.removePathsRes with
        | some re => .error re
        | none => .ok ())
    ∧ Event.removePaths ∈ (m.destroy w).2
    ∧ Event.stopUnit (getUnitName m.cgroups) ∈ (m.destroy w).2 := by
  unfold Manager.destroy
  rw [h]
  cases hs : w.stopUnitRes <;> cases hr : w.removePathsRes <;> simp

/-- Evaluation of the amended claim C1 at a world where both stop and
removal fail: the stop error is reported. -/
theorem destroy_error_reporting_witness :
    ((mgrManaged.destroy wBothFail).1 = match wBothFail.stopUnitRes with
      | some se => .error se
      | none => match wBothFail.removePathsRes with
        | some re => .error re
        | none => .ok ())
    ∧ Event.removePaths ∈ (mgrManaged.destroy wBothFail).2
    ∧ Event.stopUnit (getUnitName mgrManaged.cgroups) ∈ (mgrManaged.destroy wBothFail).2 :=
  destroy_error_reporting mgrManaged wBothFail (by rfl)

/-- Claim C4 counterexample: on a config with explicit externally
supplied paths and a unified-resource value, `Apply` returns the
unified rejection and enrolls the pid nowhere, so the rejection is not
restricted to the no-explicit-paths case. -/
theorem apply_unified_rejected_despite_paths :
    mgrPathsUnified.apply allOkWorld 7
      = (mgrPathsUnified, .error errV1NoUnified, [])
    ∧ Event.enterPid ∉ (mgrPathsUnified.apply allOkWorld 7).2.2 := by
  refine ⟨by rfl, ?_⟩
  rw [show (mgrPathsUnified.apply allOkWorld 7).2.2 = [] from rfl]
  simp

/-- Claim C4, amended: the unified-resource rejection is checked first
and applies whether or not explicit paths are supplied; on a config with
explicit paths and no unified value, `Apply` enrolls the pid directly
into the intersection of those paths with the caller's currently active
hierarchies and performs no unit start. -/
theorem apply_explicit_paths_enroll (m : Manager) (w : World) (pid : Int)
    (cpaths : List (String × String)) (active : List String)
    (hu : m.cgroups.resources.unified = none)
    (hp : m.cgroups.paths = some cpaths)
    (hparse : w.parseCgroup = .ok active) :
    m.apply w pid
      = ({ m with paths := cpaths.filter fun kv => active.contains kv.1 },
         w.enterPidRes,
         [Event.lock, Event.parseCgroupFile, Event.enterPid, Event.unlock])
    ∧ ((m.apply w pid).2.2.all fun ev => !isStartUnit ev) = true := by
  constructor
  · simp [Manager.apply, hu, hp, hparse]
  · simp [Manager.apply, hu, hp, hparse, isStartUnit]

/-- Evaluation of the amended claim C4: the devices path survives the
intersection, the net_cls path (not among the active hierarchies) is
dropped, no unit is started. -/
theorem apply_explicit_paths_enroll_witness :
    mgrPathsOnly.apply allOkWorld 3
      = ({ mgrPathsOnly with paths := intersectedPaths },
         allOkWorld.enterPidRes,
         [Event.lock, Event.parseCgroupFile, Event.enterPid, Event.unlock])
    ∧ ((mgrPathsOnly.apply allOkWorld 3).2.2.all fun ev => !isStartUnit ev) = true :=
  apply_explicit_paths_enroll mgrPathsOnly allOkWorld 3
    [("devices", "/d"), ("net_cls", "/n")] ["devices", "memory", "freezer"]
    (by rfl) (by rfl) (by rfl)

/-- Claim C7: a translation failure (malformed device rule or cpuset)
makes the translator return an error with no properties, and `Set`
surfaces it with no unit-manager or kernel call made and the manager
state unchanged. -/
theorem translation_error_no_partial (m : Manager) (w : World) (r : Resources)
    (e : String)
    (hp : m.cgroups.paths = none)
    (hu : r.unified = none)
    (hg : genV1ResourcesProperties r = .error e) :
    m.set w r = (m, .error e, []) := by
  simp [Manager.set, hp, hu, hg]

/-- Evaluation of claim C7 at a resource value with a malformed device
rule: `Set` returns the translation error having made no external call. -/
theorem translation_error_no_partial_witness :
    mgrManaged.set allOkWorld rBadDev
      = (mgrManaged, .error "device translation failed", []) :=
  translation_error_no_partial mgrManaged allOkWorld rBadDev
    "device translation failed" (by rfl) (by rfl) (by rfl)

/-- Claim C8: when the devices subsystem path cannot be resolved (and no
other subsystem fails fatally first), `Apply` on a managed config
returns the resolution error, updates no state, and never touches the
cgroup filesystem: no directory is created and the pid is enrolled
nowhere. -/
theorem apply_devices_resolution_failure (m : Manager) (w : World) (pid : Int)
    (pe : PathErr)
    (hu : m.cgroups.resources.unified = none)
    (hp : m.cgroups.paths = none)
    (hstart : w.startUnitRes = none)
    (hdev : w.subsystemPathRes "devices" = .error pe)
    (hcpuset : ∀ q, w.subsystemPathRes "cpuset" = .error q → q.notFound = true) :
    (m.apply w pid).1 = m
    ∧ (m.apply w pid).2.1 = .error pe.msg
    ∧ ((m.apply w pid).2.2.all fun ev => !touchesCgroupFs ev) = true := by
  have hres : resolvePaths w legacySubsystems = .error pe.msg := by
    unfold legacySubsystems
    cases hc : w.subsystemPathRes "cpuset" with
    | error q =>
      have hq := hcpuset q hc
      simp [resolvePaths, hc, hdev, hq]
    | ok p =>
      simp [resolvePaths, hc, hdev]
  refine ⟨?_, ?_, ?_⟩ <;>
    simp [Manager.apply, hu, hp, hstart, hres, touchesCgroupFs]

/-- Evaluation of claim C8: with the devices hierarchy unmounted,
`Apply` fails with the resolution error and makes no cgroup-filesystem
call. -/
theorem apply_devices_resolution_failure_witness :
    (mgrManaged.apply wNoDevPath 42).1 = mgrManaged
    ∧ (mgrManaged.apply wNoDevPath 42).2.1 = .error "devices hierarchy not mounted"
    ∧ ((mgrManaged.apply wNoDevPath 42).2.2.all fun ev => !touchesCgroupFs ev) = true :=
  apply_devices_resolution_failure mgrManaged wNoDevPath 42
    ⟨true, "devices hierarchy not mounted"⟩ (by rfl) (by rfl) (by rfl) (by rfl)
    (by intro q hq; simp [wNoDevPath, allOkWorld] at hq)

/-- Freezing never changes the path table. -/
theorem freeze_paths (m : Manager) (w : World) (i : Nat) (s : FreezerState) :
    ((m.freeze w i s).1).paths = m.paths := by
  unfold Manager.freeze
  split
  · rfl
  · split <;> rfl

/-- With a freezer path tracked, a freeze attempt emits exactly one
freezer write, whether or not the kernel write succeeds. -/
theorem freeze_trace (m : Manager) (w : World) (i : Nat) (s : FreezerState)
    (p : String) (h : lookupPath m.paths "freezer" = some p) :
    (m.freeze w i s).2.2 = [Event.freezeWrite s] := by
  simp only [Manager.freeze, h]
  split <;> rfl

/-- `freezeWrites` distributes over append. -/
theorem freezeWrites_append (xs ys : List Event) :
    freezeWrites (xs ++ ys) = freezeWrites xs ++ freezeWrites ys := by
  simp [freezeWrites]

/-- A `runSeq` whose step emits no freezer writes emits none overall. -/
theorem runSeq_freezeWrites (f : String → Except String Unit × List Event)
    (hstep : ∀ s, freezeWrites (f s).2 = []) :
    ∀ L, freezeWrites (runSeq f L).2 = [] := by
  intro L
  induction L with
  | nil => rfl
  | cons s rest ih =>
    unfold runSeq
    cases hf : f s with
    | mk r evs =>
      have h1 : freezeWrites evs = [] := by
        have := hstep s
        rw [hf] at this
        exact this
      cases r with
      | error e => simpa using h1
      | ok _ => simp [freezeWrites_append, h1, ih]

/-- The per-subsystem `Set` step emits no freezer writes. -/
theorem setOne_freezeWrites (w : World) (ps : List (String × String))
    (s : String) : freezeWrites (setOne w ps s).2 = [] := by
  unfold setOne
  split
  · rfl
  · split <;> rfl

/-- Claim C6: on a managed group with device enforcement not skipped and
a freezer hierarchy available, `Set` reads the pre-call freezer state
(defaulting Undefined to Thawed), writes Frozen, and its final freezer
write before returning restores the pre-call state, both when property
application succeeds and when it fails; the result is determined by the
unit-manager and subsystem outcomes alone, never by a freezer-write
failure. -/
theorem set_restores_freezer (m : Manager) (w : World) (r : Resources)
    (props : List Property) (p : String) (s0 : FreezerState)
    (hp : m.cgroups.paths = none)
    (hu : r.unified = none)
    (hg : genV1ResourcesProperties r = .ok props)
    (hskip : m.cgroups.skipDevices = false)
    (hfr : lookupPath m.paths "freezer" = some p)
    (hget : w.freezerGetRes = .ok s0) :
    Event.getFreezer ∈ (m.set w r).2.2
    ∧ freezeWrites (m.set w r).2.2
        = [FreezerState.frozen,
           if s0 = FreezerState.undefined then FreezerState.thawed else s0]
    ∧ ((m.set w r).2.1 = match w.setUnitPropsRes with
        | some e => .error e
        | none => (runSeq (setOne w m.paths) legacySubsystems).1) := by
  have hget1 : m.getFreezerState w = (.ok s0, [Event.getFreezer]) := by
    unfold Manager.getFreezerState
    rw [hfr, hget]
  have hfr2 : lookupPath ((m.freeze w 0 FreezerState.frozen).1).paths "freezer"
      = some p := by rw [freeze_paths]; exact hfr
  have htr0 := freeze_trace m w 0 FreezerState.frozen p hfr
  have htr1 := freeze_trace (m.freeze w 0 FreezerState.frozen).1 w 1
    (if s0 = FreezerState.undefined then FreezerState.thawed else s0) p hfr2
  have hpaths2 : (((m.freeze w 0 FreezerState.frozen).1.freeze w 1
      (if s0 = FreezerState.undefined then FreezerState.thawed else s0)).1).paths
      = m.paths := by rw [freeze_paths, freeze_paths]
  have hrun := runSeq_freezeWrites (setOne w m.paths)
    (setOne_freezeWrites w m.paths) legacySubsystems
  unfold Manager.set
  rw [hp, hu, hg]
  simp only [Option.isSome_none, Bool.false_eq_true, if_false, hskip]
  unfold setAfterFreeze
  rw [hget1]
  simp only []
  cases hsp : w.setUnitPropsRes with
  | some e =>
    simp only [htr0, htr1, freezeWrites_append, freezeWrites]
    simp
  | none =>
    rw [hpaths2]
    simp only [htr0, htr1]
    refine ⟨by simp, ?_, by simp⟩
    rw [freezeWrites_append, freezeWrites_append, freezeWrites_append,
      freezeWrites_append]
    rw [show freezeWrites (runSeq (setOne w m.paths) legacySubsystems).2 = []
      from hrun]
    simp [freezeWrites]

/-- Evaluation of claim C6 at a thawed container in an all-success
world: `Set` writes Frozen then restores Thawed, and succeeds. -/
theorem set_restores_freezer_witness :
    Event.getFreezer ∈ (mgrManaged.set allOkWorld rSample).2.2
    ∧ freezeWrites (mgrManaged.set allOkWorld rSample).2.2
        = [FreezerState.frozen, FreezerState.thawed]
    ∧ ((mgrManaged.set allOkWorld rSample).2.1 = match allOkWorld.setUnitPropsRes with
        | some e => .error e
        | none => (runSeq (setOne allOkWorld mgrManaged.paths) legacySubsystems).1) :=
  set_restores_freezer mgrManaged allOkWorld rSample v1SampleProps "/f"
    FreezerState.thawed (by rfl) (by rfl) (by rfl) (by rfl) (by rfl) (by rfl)

/-- A freeze attempt never takes the manager lock. -/
theorem freeze_no_lock (m : Manager) (w : World) (i : Nat) (s : FreezerState) :
    Event.lock ∉ (m.freeze w i s).2.2 := by
  simp only [Manager.freeze]
  split
  · simp
  · split <;> simp

/-- Reading the freezer state never takes the manager lock. -/
theorem getFreezerState_no_lock (m : Manager) (w : World) :
    Event.lock ∉ (m.getFreezerState w).2 := by
  simp only [Manager.getFreezerState]
  split <;> simp

/-- A `runSeq` whose step never takes the lock never takes it overall. -/
theorem runSeq_no_lock (f : String → Except String Unit × List Event)
    (h : ∀ s, Event.lock ∉ (f s).2) :
    ∀ L, Event.lock ∉ (runSeq f L).2 := by
  intro L
  induction L with
  | nil => simp [runSeq]
  | cons s rest ih =>
    unfold runSeq
    cases hf : f s with
    | mk r evs =>
      have h1 : Event.lock ∉ evs := by
        have := h s
        rw [hf] at this
        exact this
      cases r with
      | error e => simpa using h1
      | ok _ =>
        intro hmem
        rcases List.mem_append.mp hmem with hc | hc
        · exact h1 hc
        · exact ih hc

/-- The per-subsystem `Set` step never takes the lock. -/
theorem setOne_no_lock (w : World) (ps : List (String × String)) (s : String) :
    Event.lock ∉ (setOne w ps s).2 := by
  unfold setOne
  split
  · simp
  · split <;> simp

/-- The tail of `Set` never takes the lock when its prefix trace has not. -/
theorem setAfterFreeze_no_lock (m : Manager) (w : World) (t : FreezerState)
    (pre : List Event) (hpre : Event.lock ∉ pre) :
    Event.lock ∉ (setAfterFreeze m w t pre).2.2 := by
  unfold setAfterFreeze
  split
  · intro hmem
    rcases List.mem_append.mp hmem with hc | hc
    · rcases List.mem_append.mp hc with hc2 | hc2
      · exact hpre hc2
      · simp at hc2
    · exact freeze_no_lock m w 1 t hc
  · intro hmem
    rcases List.mem_append.mp hmem with hc | hc
    · rcases List.mem_append.mp hc with hc2 | hc2
      · rcases List.mem_append.mp hc2 with hc3 | hc3
        · exact hpre hc3
        · simp at hc3
      · exact freeze_no_lock m w 1 t hc2
    · exact runSeq_no_lock _ (setOne_no_lock w _) legacySubsystems hc

/-- `Set` never takes the manager lock. -/
theorem set_no_lock (m : Manager) (w : World) (r : Resources) :
    Event.lock ∉ (m.set w r).2.2 := by
  unfold Manager.set
  split
  · simp
  · split
    · simp
    · split
      · simp
      · split
        · exact setAfterFreeze_no_lock _ _ _ _ (by simp)
        · split
          · exact getFreezerState_no_lock m w
          · refine setAfterFreeze_no_lock _ _ _ _ ?_
            intro hmem
            rcases List.mem_append.mp hmem with hc | hc
            · exact getFreezerState_no_lock m w hc
            · exact freeze_no_lock m w 0 FreezerState.frozen hc

/-- Claim C9 counterexample: a managed `Set` call that performs real
external work (its trace is non-empty) without ever acquiring the
manager lock, refuting the claim that `Set` holds the lock for its full
duration. -/
theorem set_does_not_lock :
    Event.lock ∉ (mgrManaged.set allOkWorld rSample).2.2
    ∧ (mgrManaged.set allOkWorld rSample).2.2 ≠ [] := by
  refine ⟨set_no_lock mgrManaged allOkWorld rSample, ?_⟩
  intro h
  have h2 : (mgrManaged.set allOkWorld rSample).2.2.head? = some Event.getFreezer := by
    rfl
  rw [h] at h2
  simp at h2

/-- On a managed config, `Destroy` makes exactly a locked
stop-then-remove sequence. -/
theorem destroy_trace (m : Manager) (w : World) (h : m.cgroups.paths = none) :
    (m.destroy w).2 = [Event.lock, Event.stopUnit (getUnitName m.cgroups),
      Event.removePaths, Event.unlock] := by
  unfold Manager.destroy
  rw [h, if_neg (by simp)]
  split <;> rfl

/-- Claim C9, amended: only `Destroy` (after its unmanaged
short-circuit), `Apply` (after its unified-resource check), `Path` and
`GetStats` acquire the manager's exclusive lock; `Set`, `Freeze` and
`GetPids` never acquire it. -/
theorem lock_discipline (m : Manager) (w : World) (r : Resources) (pid : Int)
    (subsys : String) (st : FreezerState) (i : Nat) :
    Event.lock ∉ (m.set w r).2.2
    ∧ Event.lock ∉ (m.freeze w i st).2.2
    ∧ (m.getPids w).2 = []
    ∧ (m.path subsys).2 = [Event.lock, Event.unlock]
    ∧ (m.getStats w).2.head? = some Event.lock
    ∧ (m.getStats w).2.getLast? = some Event.unlock
    ∧ (m.cgroups.paths = none →
        (m.destroy w).2.head? = some Event.lock
        ∧ (m.destroy w).2.getLast? = some Event.unlock)
    ∧ (m.cgroups.resources.unified = none →
        (m.apply w pid).2.2.head? = some Event.lock
        ∧ (m.apply w pid).2.2.getLast? = some Event.unlock) := by
  refine ⟨set_no_lock m w r, freeze_no_lock m w i st, ?_, rfl, ?_, ?_, ?_, ?_⟩
  · unfold Manager.getPids
    split <;> rfl
  · rfl
  · show (([Event.lock] ++ (runSeq (statsOne w m.paths) legacySubsystems).2)
      ++ [Event.unlock]).getLast? = some Event.unlock
    exact List.getLast?_concat _
  · intro h
    rw [destroy_trace m w h]
    exact ⟨rfl, rfl⟩
  · intro h
    unfold Manager.apply
    rw [if_neg (by simp [h])]
    split
    · split
      · exact ⟨rfl, rfl⟩
      · exact ⟨rfl, rfl⟩
    · split
      · exact ⟨rfl, rfl⟩
      · split
        · exact ⟨rfl, rfl⟩
        · refine ⟨rfl, ?_⟩
          dsimp only
          exact List.getLast?_concat _

/-- Evaluation of the amended claim C9 at a managed manager in an
all-success world. -/
theorem lock_discipline_witness :
    Event.lock ∉ (mgrManaged.set allOkWorld rSample).2.2
    ∧ Event.lock ∉ (mgrManaged.freeze allOkWorld 0 FreezerState.frozen).2.2
    ∧ (mgrManaged.getPids allOkWorld).2 = []
    ∧ (mgrManaged.path "devices").2 = [Event.lock, Event.unlock]
    ∧ (mgrManaged.getStats allOkWorld).2.head? = some Event.lock
    ∧ (mgrManaged.getStats allOkWorld).2.getLast? = some Event.unlock
    ∧ ((mgrManaged.destroy allOkWorld).2.head? = some Event.lock
        ∧ (mgrManaged.destroy allOkWorld).2.getLast? = some Event.unlock)
    ∧ ((mgrManaged.apply allOkWorld (-1)).2.2.head? = some Event.lock
        ∧ (mgrManaged.apply allOkWorld (-1)).2.2.getLast? = some Event.unlock) := by
  obtain ⟨h1, h2, h3, h4, h5, h6, h7, h8⟩ :=
    lock_discipline mgrManaged allOkWorld rSample (-1) "devices" FreezerState.frozen 0
  exact ⟨h1, h2, h3, h4, h5, h6, h7 (by rfl), h8 (by rfl)⟩

/-- Shifting the buffer-size chain by one answered query. -/
theorem chainSize_shift (size : Nat) (req : Nat → Nat) (k : Nat) :
    chainSize (req 0) (fun j => req (j + 1)) k = chainSize size req (k + 1) := by
  cases k <;> rfl

/-- Unfolding `k` consecutive ENOSPC answers: the loop issues `k`
queries, resizing the buffer to the kernel-reported count each time,
and continues from the `k`-th call with the last reported count. -/
theorem queryLoop_enospc_chain (w : BpfWorld) :
    ∀ (k idx size fuel : Nat) (req : Nat → Nat),
      (∀ j, j < k → w.resp (idx + j) = .enospc (req j)) →
      queryLoop w idx size (fuel + k)
        = ((queryLoop w (idx + k) (chainSize size req k) fuel).1,
           ((List.range k).map fun j => BpfEvent.query (chainSize size req j))
             ++ (queryLoop w (idx + k) (chainSize size req k) fuel).2) := by
  intro k
  induction k with
  | zero =>
    intro idx size fuel req h
    simp [chainSize]
  | succ k ih =>
    intro idx size fuel req h
    have h0 : w.resp idx = .enospc (req 0) := by
      have := h 0 (Nat.succ_pos k)
      simpa using this
    have hstep : queryLoop w idx size (fuel + (k + 1))
        = ((queryLoop w (idx + 1) (req 0) (fuel + k)).1,
           BpfEvent.query size :: (queryLoop w (idx + 1) (req 0) (fuel + k)).2) := by
      show queryLoop w idx size ((fuel + k) + 1) = _
      simp only [queryLoop, h0]
    have ihh := ih (idx + 1) (req 0) fuel (fun j => req (j + 1)) ?hyp
    case hyp =>
      intro j hj
      have hh := h (j + 1) (by omega)
      have harith : idx + (j + 1) = idx + 1 + j := by omega
      rw [harith] at hh
      exact hh
    rw [hstep, ihh]
    have hidx : idx + 1 + k = idx + (k + 1) := by omega
    rw [hidx]
    simp only [chainSize_shift size req]
    rw [List.range_succ_eq_map]
    simp [List.map_map, Function.comp_def, chainSize]

/-- Claim C2: in the device-filter enumeration, fewer than 10
consecutive ENOSPC answers followed by a successful query make the
enumeration succeed, the final query using the kernel-reported required
count as the buffer size (`chainSize 64 req k`); exactly 10 consecutive
ENOSPC answers produce the enumeration-race error; any other errno
aborts immediately after exactly `k + 1` queries; the race error is
distinct from a plain syscall error. -/
theorem device_filter_query_retry (w : BpfWorld) (k : Nat) (req : Nat → Nat)
    (ids progs : List Nat) (e : Nat) :
    ((∀ i, i < k → w.resp i = .enospc (req i)) → k < 10 → w.resp k = .ok ids →
        resolvePrograms w ids = .ok progs →
        (findAttachedCgroupDeviceFilters w).1 = .ok progs
        ∧ (findAttachedCgroupDeviceFilters w).2.getLast?
            = some (BpfEvent.query (chainSize 64 req k)))
    ∧ ((∀ i, i < 10 → w.resp i = .enospc (req i)) →
        (findAttachedCgroupDeviceFilters w).1 = .error .enumerationRace)
    ∧ ((∀ i, i < k → w.resp i = .enospc (req i)) → k < 10 → w.resp k = .fail e →
        (findAttachedCgroupDeviceFilters w).1 = .error (.syscall e)
        ∧ (findAttachedCgroupDeviceFilters w).2.length = k + 1)
    ∧ FilterErr.enumerationRace ≠ FilterErr.syscall e := by
  refine ⟨?_, ?_, ?_, fun h => FilterErr.noConfusion h⟩
  · intro hE hk hok hres
    have h10 : (10 - k) + k = 10 := by omega
    have hch := queryLoop_enospc_chain w k 0 64 (10 - k) req (by
      intro j hj
      simpa using hE j hj)
    obtain ⟨f, hf⟩ : ∃ f, 10 - k = f + 1 := ⟨10 - k - 1, by omega⟩
    have hstep : queryLoop w (0 + k) (chainSize 64 req k) (10 - k)
        = (.ok progs, [BpfEvent.query (chainSize 64 req k)]) := by
      rw [hf]
      have hrk : w.resp (0 + k) = .ok ids := by simpa using hok
      simp only [queryLoop, hrk, hres]
    rw [show findAttachedCgroupDeviceFilters w
        = queryLoop w 0 64 ((10 - k) + k) by rw [h10]; rfl]
    rw [hch, hstep]
    exact ⟨rfl, List.getLast?_concat _⟩
  · intro hE
    have hch := queryLoop_enospc_chain w 10 0 64 0 req (by
      intro j hj
      simpa using hE j hj)
    rw [show findAttachedCgroupDeviceFilters w
        = queryLoop w 0 64 (0 + 10) from rfl]
    rw [hch]
    rfl
  · intro hE hk hfail
    have h10 : (10 - k) + k = 10 := by omega
    have hch := queryLoop_enospc_chain w k 0 64 (10 - k) req (by
      intro j hj
      simpa using hE j hj)
    obtain ⟨f, hf⟩ : ∃ f, 10 - k = f + 1 := ⟨10 - k - 1, by omega⟩
    have hstep : queryLoop w (0 + k) (chainSize 64 req k) (10 - k)
        = (.error (.syscall e), [BpfEvent.query (chainSize 64 req k)]) := by
      rw [hf]
      have hrk : w.resp (0 + k) = .fail e := by simpa using hfail
      simp only [queryLoop, hrk]
    rw [show findAttachedCgroupDeviceFilters w
        = queryLoop w 0 64 ((10 - k) + k) by rw [h10]; rfl]
    rw [hch, hstep]
    exact ⟨rfl, by simp⟩

/-- Evaluation of claim C2: one ENOSPC reporting 80 then success uses
buffer size 80 and succeeds; constant ENOSPC yields the race error;
errno 14 on the first query fails immediately after one query. -/
theorem device_filter_query_retry_witness :
    ((findAttachedCgroupDeviceFilters bw1).1 = .ok [7]
      ∧ (findAttachedCgroupDeviceFilters bw1).2.getLast?
          = some (BpfEvent.query (chainSize 64 (fun _ => 80) 1)))
    ∧ (findAttachedCgroupDeviceFilters bwRace).1 = .error .enumerationRace
    ∧ ((findAttachedCgroupDeviceFilters bwFail).1 = .error (.syscall 14)
      ∧ (findAttachedCgroupDeviceFilters bwFail).2.length = 0 + 1) := by
  refine ⟨?_, ?_, ?_⟩
  · exact (device_filter_query_retry bw1 1 (fun _ => 80) [7] [7] 14).1
      (by intro i hi; interval_cases i; rfl) (by omega) (by rfl) (by rfl)
  · exact (device_filter_query_retry bwRace 10 (fun _ => 99) [] [] 14).2.1
      (by intro i hi; rfl)
  · exact (device_filter_query_retry bwFail 0 (fun _ => 0) [] [] 14).2.2.1
      (by intro i hi; omega) (by omega) (by rfl)

/-- Every event of the query loop is a query. -/
theorem queryLoop_events_query (w : BpfWorld) :
    ∀ (fuel idx size : Nat), ∀ ev ∈ (queryLoop w idx size fuel).2,
      ∃ n, ev = BpfEvent.query n := by
  intro fuel
  induction fuel with
  | zero =>
    intro idx size ev hev
    simp [queryLoop] at hev
  | succ fuel ih =>
    intro idx size ev hev
    simp only [queryLoop] at hev
    cases hr : w.resp idx with
    | enospc required =>
      rw [hr] at hev
      simp only [List.mem_cons] at hev
      rcases hev with rfl | hev
      · exact ⟨size, rfl⟩
      · exact ih (idx + 1) required ev hev
    | fail errno =>
      rw [hr] at hev
      simp only [List.mem_singleton] at hev
      exact ⟨size, hev⟩
    | ok ids =>
      rw [hr] at hev
      dsimp only at hev
      cases hres : resolvePrograms w ids with
      | error e2 =>
        rw [hres] at hev
        simp only [List.mem_singleton] at hev
        exact ⟨size, hev⟩
      | ok ps =>
        rw [hres] at hev
        simp only [List.mem_singleton] at hev
        exact ⟨size, hev⟩

/-- `attachArg` skips a prefix holding no attach event. -/
theorem attachArg_append (xs ys : List BpfEvent)
    (h : ∀ ev ∈ xs, ∀ r, ev ≠ BpfEvent.attach r) :
    attachArg (xs ++ ys) = attachArg ys := by
  induction xs with
  | nil => rfl
  | cons ev rest ih =>
    have hrest : ∀ e2 ∈ rest, ∀ r, e2 ≠ BpfEvent.attach r :=
      fun e2 he2 => h e2 (List.mem_cons_of_mem _ he2)
    cases ev with
    | attach r => exact absurd rfl (h _ (List.mem_cons_self _ _) r)
    | setrlimit => exact ih hrest
    | query n => exact ih hrest
    | loadProg => exact ih hrest
    | detach q => exact ih hrest

/-- When every old-program detach succeeds, the loop detaches each
program in order and succeeds. -/
theorem detachOldProgs_all_ok (w : BpfWorld) :
    ∀ ps : List Nat, ps.all w.detachOk = true →
      detachOldProgs w ps = (.ok (), ps.map BpfEvent.detach) := by
  intro ps
  induction ps with
  | nil => intro _; rfl
  | cons q rest ih =>
    intro h
    simp only [List.all_cons, Bool.and_eq_true] at h
    simp [detachOldProgs, h.1, ih h.2]

/-- When some detach fails, the loop surfaces the detach error. -/
theorem detachOldProgs_fail (w : BpfWorld) :
    ∀ ps : List Nat, ps.all w.detachOk = false →
      (detachOldProgs w ps).1 = .error errDetachOld := by
  intro ps
  induction ps with
  | nil => intro h; simp at h
  | cons q rest ih =>
    intro h
    cases hq : w.detachOk q with
    | false => simp [detachOldProgs, hq]
    | true =>
      have hrest : rest.all w.detachOk = false := by
        rw [List.all_cons, hq] at h
        simpa using h
      simp [detachOldProgs, hq, ih hrest]

/-- `detachedProgs` distributes over append. -/
theorem detachedProgs_append (xs ys : List BpfEvent) :
    detachedProgs (xs ++ ys) = detachedProgs xs ++ detachedProgs ys := by
  simp [detachedProgs]

/-- The detach events of a pure detach sequence. -/
theorem detachedProgs_map (ps : List Nat) :
    detachedProgs (ps.map BpfEvent.detach) = ps := by
  induction ps <;> simp_all [detachedProgs]

/-- A trace of queries detaches nothing. -/
theorem detachedProgs_queries (xs : List BpfEvent)
    (h : ∀ ev ∈ xs, ∃ n, ev = BpfEvent.query n) : detachedProgs xs = [] := by
  induction xs with
  | nil => rfl
  | cons ev rest ih =>
    obtain ⟨n, rfl⟩ := h ev (List.mem_cons_self _ _)
    have := ih (fun e2 he2 => h e2 (List.mem_cons_of_mem _ he2))
    simpa [detachedProgs] using this

/-- Claim C3: on a successful install, the attach passes the single
prior program as the explicit replace target when exactly one was
attached, and no replace target otherwise; with more than one prior
program every prior program is individually detached (in order) when
detaching succeeds, the install returning the new-program revert action;
a detach failure is surfaced as an error together with the still-valid
revert action. -/
theorem load_attach_replace_semantics (w : BpfWorld) (oldProgs : List Nat)
    (p : Nat)
    (hf : (findAttachedCgroupDeviceFilters w).1 = .ok oldProgs)
    (hl : w.loadRes = .ok p)
    (ha : w.attachOk = true) :
    attachArg (LoadAttachCgroupDeviceFilter w).2 = some (replaceOf oldProgs)
    ∧ (oldProgs.all w.detachOk = true →
        (LoadAttachCgroupDeviceFilter w).1 = (Closer.detachNew p, .ok ())
        ∧ (1 < oldProgs.length →
            detachedProgs (LoadAttachCgroupDeviceFilter w).2 = oldProgs))
    ∧ (oldProgs.length ≤ 1 →
        (LoadAttachCgroupDeviceFilter w).1 = (Closer.detachNew p, .ok ()))
    ∧ (1 < oldProgs.length → oldProgs.all w.detachOk = false →
        (LoadAttachCgroupDeviceFilter w).1
          = (Closer.detachNew p, .error errDetachOld)) := by
  have hfev : ∀ ev ∈ (findAttachedCgroupDeviceFilters w).2,
      ∃ n, ev = BpfEvent.query n := queryLoop_events_query w 10 0 64
  have hpre : ∀ ev ∈ BpfEvent.setrlimit :: (findAttachedCgroupDeviceFilters w).2,
      ∀ r, ev ≠ BpfEvent.attach r := by
    intro ev hev r
    rcases List.mem_cons.mp hev with rfl | hev2
    · exact fun hcon => BpfEvent.noConfusion hcon
    · obtain ⟨n, rfl⟩ := hfev ev hev2
      exact fun hcon => BpfEvent.noConfusion hcon
  have hpreD : detachedProgs (BpfEvent.setrlimit :: (findAttachedCgroupDeviceFilters w).2)
      = [] := by
    have := detachedProgs_queries _ hfev
    simpa [detachedProgs] using this
  have key : LoadAttachCgroupDeviceFilter w
      = if 1 < oldProgs.length then
          (match (detachOldProgs w oldProgs).1 with
           | .error e =>
              ((Closer.detachNew p, .error e),
               (BpfEvent.setrlimit :: (findAttachedCgroupDeviceFilters w).2)
                 ++ [BpfEvent.loadProg, BpfEvent.attach (replaceOf oldProgs)]
                 ++ (detachOldProgs w oldProgs).2)
           | .ok _ =>
              ((Closer.detachNew p, .ok ()),
               (BpfEvent.setrlimit :: (findAttachedCgroupDeviceFilters w).2)
                 ++ [BpfEvent.loadProg, BpfEvent.attach (replaceOf oldProgs)]
                 ++ (detachOldProgs w oldProgs).2))
        else
          ((Closer.detachNew p, .ok ()),
           (BpfEvent.setrlimit :: (findAttachedCgroupDeviceFilters w).2)
             ++ [BpfEvent.loadProg, BpfEvent.attach (replaceOf oldProgs)]) := by
    unfold LoadAttachCgroupDeviceFilter
    simp only [hf, hl, ha, if_true]
  refine ⟨?_, ?_, ?_, ?_⟩
  · rw [key]
    by_cases hlen : 1 < oldProgs.length
    · rw [if_pos hlen]
      cases hd : (detachOldProgs w oldProgs).1 with
      | error e =>
        simp only [hd]
        rw [List.append_assoc]
        rw [attachArg_append _ _ hpre]
        rfl
      | ok u =>
        simp only [hd]
        rw [List.append_assoc]
        rw [attachArg_append _ _ hpre]
        rfl
    · rw [if_neg hlen]
      rw [attachArg_append _ _ hpre]
      rfl
  · intro hall
    rw [key]
    by_cases hlen : 1 < oldProgs.length
    · rw [if_pos hlen]
      have hd := detachOldProgs_all_ok w oldProgs hall
      have hd1 : (detachOldProgs w oldProgs).1 = .ok () := by rw [hd]
      have hd2 : (detachOldProgs w oldProgs).2 = oldProgs.map BpfEvent.detach := by
        rw [hd]
      simp only [hd1]
      refine ⟨by trivial, fun _ => ?_⟩
      rw [hd2, detachedProgs_append, detachedProgs_append, hpreD,
        detachedProgs_map]
      rfl
    · rw [if_neg hlen]
      exact ⟨rfl, fun hc => absurd hc hlen⟩
  · intro hle
    rw [key, if_neg (by omega)]
  · intro hlen hfall
    rw [key, if_pos hlen]
    have hd1 := detachOldProgs_fail w oldProgs hfall
    simp only [hd1]

/-- Evaluation of claim C3 at a cgroup with two prior programs: the
attach carries no replace target, both priors are detached in order,
and the revert action detaches the new program. -/
theorem load_attach_replace_semantics_witness :
    attachArg (LoadAttachCgroupDeviceFilter bwTwo).2 = some (replaceOf [3, 4])
    ∧ (LoadAttachCgroupDeviceFilter bwTwo).1 = (Closer.detachNew 9, .ok ())
    ∧ detachedProgs (LoadAttachCgroupDeviceFilter bwTwo).2 = [3, 4] := by
  obtain ⟨h1, h2, h3, h4⟩ :=
    load_attach_replace_semantics bwTwo [3, 4] 9 (by rfl) (by rfl) (by rfl)
  have h5 := h2 (by rfl)
  exact ⟨h1, h5.1, h5.2 (by decide)⟩

end Runc
